import Mathlib

/-!
Verification development for the comby-skill analysis memory layer and
plugin hooks.

The memory layer of this repository is specified in its design documents
(the `patterns`, `pattern_relations`, `file_snapshots` and `annotations`
DDL, the recursive-CTE queries, and the `MemoryManager` /
`GraphQueries` / `VectorSearch` / `CodeEmbedding` interfaces).  The
Python method bodies in the repository are unimplemented (`pass`), so
operations whose only description is the specification are modelled from
the spec and marked as such in their doc comments; SQL queries and DDL
that do appear in the repository are embedded faithfully.  The four
plugin hooks (`pre-tool-use.js`, `post-tool-use.js`,
`file-change-analysis.js`, `pre-commit-analysis.js`) are real JavaScript
and are embedded with an explicit model of the JavaScript values,
property accesses, thrown `TypeError`s and `console` output they use.
-/

namespace Comby

/-! ### Character-list string utilities

String scanning is implemented over `List Char` (via `String.data`) so
that every definition is executable and kernel-reducible on concrete
inputs. -/

/-- Tests whether `pat` is a prefix of `hay`. -/
def isPrefixL : List Char → List Char → Bool
  | [], _ => true
  | _ :: _, [] => false
  | a :: as, b :: bs => a == b && isPrefixL as bs

/-- Tests whether `pat` occurs as a contiguous sublist of `hay`. -/
def containsL : List Char → List Char → Bool
  | hay, pat =>
    isPrefixL pat hay ||
      match hay with
      | [] => false
      | _ :: t => containsL t pat

/-- Substring test on strings. -/
def strContains (s pat : String) : Bool := containsL s.data pat.data

/-- Lower-cases a character list. -/
def lowerL (l : List Char) : List Char := l.map Char.toLower

/-- Case-insensitive substring test. -/
def strContainsCI (s pat : String) : Bool :=
  containsL (lowerL s.data) (lowerL pat.data)

/-- Drops characters of `hay` up to and including the first occurrence of
`pat`; `none` when `pat` does not occur. -/
def dropAfterMatch : List Char → List Char → Option (List Char)
  | hay, pat =>
    if isPrefixL pat hay then some (hay.drop pat.length)
    else
      match hay with
      | [] => none
      | _ :: t => dropAfterMatch t pat

/-- Case-insensitive ordered-substring test: `a` occurs and `b` occurs
after it (the model of a regular expression of the form a.*b). -/
def strOrderedCI (s a b : String) : Bool :=
  match dropAfterMatch (lowerL s.data) (lowerL a.data) with
  | some rest => containsL rest (lowerL b.data)
  | none => false

/-- Tests whether `s` ends with `pat`. -/
def strEndsWith (s pat : String) : Bool :=
  isPrefixL pat.data.reverse s.data.reverse

/-- Tests whether `s` starts with `pat`. -/
def strStartsWith (s pat : String) : Bool := isPrefixL pat.data s.data

/-- Counts (possibly overlapping) occurrences of `pat` in `hay`. -/
def countL : List Char → List Char → Nat
  | hay, pat =>
    (if isPrefixL pat hay then 1 else 0) +
      match hay with
      | [] => 0
      | _ :: t => countL t pat

/-- Occurrence count on strings. -/
def countSubstr (s pat : String) : Nat := countL s.data pat.data

/-- Splits a character list at every occurrence of `c`. -/
def splitChar (c : Char) : List Char → List (List Char)
  | [] => [[]]
  | a :: t =>
    match splitChar c t with
    | [] => [[a]]
    | h :: rest => if a == c then [] :: h :: rest else (a :: h) :: rest

/-- The lines of a string, split at newline characters. -/
def linesOf (s : String) : List (List Char) := splitChar '\n' s.data

/-- Largest `k` with `k * k ≤ n`, by bounded search (an executable
integer square root, exact on perfect squares). -/
def natSqrtLin (n : Nat) : Nat :=
  (List.range (n + 1)).foldl (fun acc k => if k * k ≤ n then k else acc) 0

end Comby

namespace Comby.PatternStore

/-! ### Pattern Store (claim C3)

The repository declares the `patterns` table with
`UNIQUE(file_path, pattern_type, line_number)` and describes ingest as
an upsert on that key; `MemoryManager.save_analysis_results` itself is
declared but unimplemented (`pass`). -/

/-- One detector output record, as handed to ingest. -/
structure RawFinding where
  filePath : String
  patternType : String
  lineNumber : Nat
  codeSnippet : String
  severity : String
deriving DecidableEq

/-- One stored row of the `patterns` table. -/
structure Finding where
  id : Nat
  filePath : String
  patternType : String
  lineNumber : Nat
  codeSnippet : String
  severity : String
  detectedAt : Nat
deriving DecidableEq

/-- The pattern store: its rows and the AUTOINCREMENT counter. -/
structure Store where
  findings : List Finding
  nextId : Nat
deriving DecidableEq

/-- The empty store; SQLite AUTOINCREMENT ids start at 1. -/
def emptyStore : Store := ⟨[], 1⟩

/-- Tests whether a stored row matches a raw finding on the
`(file_path, pattern_type, line_number)` unique key. -/
def keyMatches (f : Finding) (r : RawFinding) : Bool :=
  f.filePath == r.filePath && f.patternType == r.patternType &&
    f.lineNumber == r.lineNumber

/-- Refreshes the mutable columns of a row on re-detection, leaving the
key columns and the id unchanged. -/
def refreshRow (r : RawFinding) (now : Nat) (f : Finding) : Finding :=
  { f with detectedAt := now, codeSnippet := r.codeSnippet,
           severity := r.severity }

/-- The UPDATE of an upsert hit: every row matching the key — by the
UNIQUE constraint at most one — is refreshed. -/
def refreshAll (r : RawFinding) (now : Nat) (l : List Finding) :
    List Finding :=
  l.map (fun g => if keyMatches g r then refreshRow r now g else g)

/-- Modelled from the spec: `ingest` upserts by the
`(filePath, patternType, lineNumber)` key declared UNIQUE in the
`patterns` DDL — re-detection of an identical triple updates
`detectedAt` and the snippet and returns the existing id, otherwise a
fresh row is appended under a fresh id.  The `save_analysis_results`
body is missing from the source (`pass`). -/
def ingestOne (s : Store) (r : RawFinding) (now : Nat) : Store × Nat :=
  match s.findings.find? (fun f => keyMatches f r) with
  | some f =>
    ({ s with findings := refreshAll r now s.findings }, f.id)
  | none =>
    ({ findings := s.findings ++
        [⟨s.nextId, r.filePath, r.patternType, r.lineNumber,
          r.codeSnippet, r.severity, now⟩],
       nextId := s.nextId + 1 }, s.nextId)

/-- Runs a whole sequence of ingest calls. -/
def ingestList (s : Store) (rs : List (RawFinding × Nat)) : Store :=
  rs.foldl (fun st p => (ingestOne st p.1 p.2).1) s

/-- The unique-key projection of a row. -/
def tripleKey (f : Finding) : String × String × Nat :=
  (f.filePath, f.patternType, f.lineNumber)

/-- The store-level uniqueness invariant of the `patterns` table. -/
def UniqueTriples (s : Store) : Prop := (s.findings.map tripleKey).Nodup

end Comby.PatternStore

namespace Comby.RelationGraph

/-! ### Relation Graph (claim C4)

The repository's `pattern_relations` DDL declares
`FOREIGN KEY ... REFERENCES patterns(id) ON DELETE CASCADE` on both the
source and the target column. -/

/-- One row of the `pattern_relations` table. -/
structure Edge where
  source : Nat
  target : Nat
  relationType : String
  confidence : ℚ
deriving DecidableEq

/-- The relation graph: finding ids and typed edges between them. -/
structure Graph where
  nodes : List Nat
  edges : List Edge
deriving DecidableEq

/-- Modelled from the spec: `removeNode(id)` deletes the finding and, by
the `ON DELETE CASCADE` clauses of the `pattern_relations` DDL, every
edge whose source or target is the deleted id. -/
def removeNode (g : Graph) (id : Nat) : Graph :=
  { nodes := g.nodes.filter (fun n => n ≠ id),
    edges := g.edges.filter (fun e => e.source ≠ id && e.target ≠ id) }

end Comby.RelationGraph

namespace Comby.Embedding

/-! ### Embedding Engine (claim C6)

`CodeEmbedding.embed_code_snippet` in the repository documents a 768
dimension vector built from four blocks (200 lexical, 200 structural,
200 semantic, 168 content-hash) and concatenates
`extract_lexical_features`, `extract_structural_features`,
`extract_semantic_features` and `normalize_hash`, none of which is
implemented in the source.  The four extractors are modelled from the
spec below; each is a plain function of the code snippet and the
pattern type. -/

open Comby

/-- Pads or truncates a feature list to exactly `n` dimensions. -/
def padTo (n : Nat) (xs : List Int) : List Int :=
  xs.take n ++ List.replicate (n - (xs.take n).length) 0

/-- Keywords counted by the lexical block. -/
def keywordTokens : List String :=
  ["if", "else", "for", "while", "return", "def", "class", "import",
   "try", "except", "function", "lambda", "with", "raise", "yield",
   "pass"]

/-- Operators counted by the lexical block. -/
def operatorTokens : List String :=
  ["+", "-", "*", "/", "=", "==", "!=", "<", ">", "%", "&&", "||"]

/-- Modelled from the spec: lexical features are normalized counts and
presence of keywords, operators and string or number literals
(`extract_lexical_features` is missing from the source). -/
def extract_lexical_features (code : String) : List Int :=
  (keywordTokens.map (fun k => (countSubstr code k : Int))) ++
    (operatorTokens.map (fun op => (countSubstr code op : Int))) ++
    [((code.data.filter (fun c => c == '"')).length : Int),
     ((code.data.filter (fun c => c.isDigit)).length : Int)]

/-- Maximal running nesting depth of the given open and close
characters. -/
def nestingDepth (openC closeC : Char) (code : String) : Int :=
  (code.data.foldl
    (fun p c =>
      let cur := if c == openC then p.1 + 1
                 else if c == closeC then p.1 - 1 else p.1
      (cur, max p.2 cur)) ((0 : Int), (0 : Int))).2

/-- Count of leading space characters of a line. -/
def leadingSpaces (l : List Char) : Nat :=
  (l.takeWhile (fun c => c == ' ')).length

/-- Modelled from the spec: structural features are indentation depth,
brace and parenthesis nesting depth, line length and token count
(`extract_structural_features` is missing from the source). -/
def extract_structural_features (code : String) : List Int :=
  let ls := linesOf code
  [(ls.map leadingSpaces).foldl max 0,
   ((ls.map List.length).foldl max 0 : Nat),
   (ls.length : Int),
   nestingDepth '(' ')' code,
   nestingDepth (Char.ofNat 123) (Char.ofNat 125) code,
   ((splitChar ' ' code.data).filter (fun w => !w.isEmpty)).length]

/-- The pattern-type vocabulary one-hot encoded by the semantic block. -/
def patternTypeVocab : List String :=
  ["SQL_INJECTION", "MISSING_TYPE_HINTS", "XSS", "INPUT_VALIDATION",
   "AUTH_BOUNDARIES", "API_ENDPOINT", "LOGGING_POINTS",
   "ERROR_HANDLING"]

/-- Contextual keywords of the SQL pattern family. -/
def sqlVerbs : List String :=
  ["SELECT", "INSERT", "UPDATE", "DELETE", "FROM", "WHERE"]

/-- Modelled from the spec: semantic features one-hot encode the pattern
type and count contextual keywords of that pattern family, such as SQL
verbs for SQL-injection findings (`extract_semantic_features` is
missing from the source). -/
def extract_semantic_features (code patternType : String) : List Int :=
  (patternTypeVocab.map (fun t => if t == patternType then (1 : Int) else 0)) ++
    (if patternType == "SQL_INJECTION" then
      sqlVerbs.map (fun v => (countSubstr code v : Int))
     else List.replicate sqlVerbs.length 0)

/-- Whitespace-stripped normalization of a code snippet. -/
def normalizeCode (code : String) : List Char :=
  code.data.filter (fun c => !(c == ' ' || c == '\n' || c == '\t'))

/-- A deterministic rolling hash of a character list. -/
def rollHash (l : List Char) : Nat :=
  l.foldl (fun h c => (h * 31 + c.toNat) % 1000003) 7

/-- Modelled from the spec: the content-hash block spreads a stable hash
of the normalized code across the remaining dimensions
(`normalize_hash` is missing from the source). -/
def normalize_hash (code : String) : List Int :=
  let h := rollHash (normalizeCode code)
  (List.range 168).map (fun i => ((h + (i + 1) * 2654435761) % 1000003 : Int))

/-- Embedding of `CodeEmbedding.embed_code_snippet`: the concatenation
of the four documented feature blocks, 200 + 200 + 200 + 168 = 768
dimensions. -/
def embed_code_snippet (code patternType : String) : List Int :=
  padTo 200 (extract_lexical_features code) ++
    padTo 200 (extract_structural_features code) ++
    padTo 200 (extract_semantic_features code patternType) ++
    padTo 168 (normalize_hash code)

end Comby.Embedding

namespace Comby.Staleness

/-! ### Staleness and default queries (claim C7)

The repository stores `file_snapshots` rows keyed by
`(file_path, file_hash)` and its design notes describe marking prior
findings `potentially_stale` when the content hash changed; `markStale`
and the stale handling of `get_patterns` are modelled from the spec
(`MemoryManager.get_patterns` is declared but unimplemented). -/

/-- One stored finding together with its staleness flag. -/
structure SFinding where
  id : Nat
  filePath : String
  patternType : String
  severity : String
  stale : Bool
  detectedAt : Nat
deriving DecidableEq

/-- One row of the `file_snapshots` table. -/
structure FileSnapshot where
  filePath : String
  fileHash : String
  analyzedAt : Nat
deriving DecidableEq

/-- The state read by `markStale` and `get_patterns`: findings plus the
append-only snapshot history. -/
structure MemState where
  findings : List SFinding
  snapshots : List FileSnapshot
deriving DecidableEq

/-- Hash of the latest recorded snapshot of a file (snapshots are
append-only, so the latest is the last matching row). -/
def latestSnapshotHash (st : MemState) (fp : String) : Option String :=
  (st.snapshots.reverse.find? (fun s => s.filePath == fp)).map
    (fun s => s.fileHash)

/-- Modelled from the spec: `markStale(filePath, currentFileHash)`
compares against the latest `FileSnapshot` hash for that file and, if
changed, flags prior findings for that file as stale without deleting
them. -/
def markStale (st : MemState) (fp h : String) : MemState :=
  match latestSnapshotHash st fp with
  | some h0 =>
    if h0 ≠ h then
      { st with findings := st.findings.map (fun f =>
          if f.filePath == fp then { f with stale := true } else f) }
    else st
  | none => st

/-- Modelled from the spec: `query` filters by optional file path and
excludes stale findings unless they are explicitly requested. -/
def get_patterns (st : MemState) (fp : Option String)
    (includeStale : Bool) : List SFinding :=
  st.findings.filter (fun f =>
    (includeStale || !f.stale) &&
      match fp with
      | some p => f.filePath == p
      | none => true)

end Comby.Staleness

namespace Comby.AnnStore

/-! ### Annotation Store (claim C8)

The repository's `annotations` DDL has a nullable `pattern_id` with
`FOREIGN KEY(pattern_id) REFERENCES patterns(id) ON DELETE SET NULL`
and a `file_path` column; `MemoryManager.annotate_pattern` is declared
but unimplemented (`pass`), so `annotate` is modelled from the spec
contract over that DDL. -/

/-- One row of the `annotations` table. -/
structure AnnRow where
  patternId : Option Nat
  filePath : Option String
  tag : String
  note : String
  createdAt : Nat
deriving DecidableEq

/-- The annotation store next to the set of existing finding ids. -/
structure AState where
  findingIds : List Nat
  annotations : List AnnRow
deriving DecidableEq

/-- Failure mode of the annotate operation. -/
inductive AnnError where
  | InvalidAnnotationTarget
deriving DecidableEq

/-- Modelled from the spec: `annotate(findingId?, filePath?, tag, note)`
requires at least one of `findingId` and `filePath`, failing with
`InvalidAnnotationTarget` otherwise; it never checks the finding's
existence at write time and simply appends an `annotations` row. -/
def annotate (st : AState) (findingId : Option Nat)
    (filePath : Option String) (tag note : String) (now : Nat) :
    Except AnnError AState :=
  if findingId.isNone && filePath.isNone then
    .error .InvalidAnnotationTarget
  else
    .ok { st with annotations :=
      st.annotations ++ [⟨findingId, filePath, tag, note, now⟩] }

/-- Purging a finding removes its id; by the `ON DELETE SET NULL`
clause of the `annotations` DDL the annotation rows survive with their
`pattern_id` set to null. -/
def purgeFinding (st : AState) (id : Nat) : AState :=
  { findingIds := st.findingIds.filter (fun n => n ≠ id),
    annotations := st.annotations.map (fun a =>
      if a.patternId == some id then { a with patternId := none } else a) }

/-- Retrieves the annotation rows attached to a finding id. -/
def getAnnotations (st : AState) (fid : Nat) : List AnnRow :=
  st.annotations.filter (fun a => a.patternId == some fid)

end Comby.AnnStore

namespace Comby.DepChain

/-! ### Critical-path query (claim C1)

Embeds the recursive CTE of `analyze_dependencies` from the repository
(the SQL version): the base level selects the `DEPENDS_ON` rows of
`pattern_relations` at depth 1, and each recursive step joins rows of
the previous level having depth < 10 with `pattern_relations` on
`target_id = source_id`, producing depth + 1; `UNION ALL` accumulates
every level and the final SELECT orders by depth descending.  The
function returns plain rows and has no error outcome of any kind. -/

/-- One row of the `pattern_relations` table as read by the query. -/
structure Rel where
  source : Nat
  target : Nat
  rtype : String
deriving DecidableEq

/-- One row of the `dep_chain` CTE. -/
structure Row where
  source : Nat
  target : Nat
  depth : Nat
deriving DecidableEq

/-- Base case of the CTE: every `DEPENDS_ON` edge at depth 1. -/
def baseLevel (rels : List Rel) : List Row :=
  rels.filterMap (fun r =>
    if r.rtype == "DEPENDS_ON" then some ⟨r.source, r.target, 1⟩ else none)

/-- Recursive case of the CTE: rows of the previous level with
depth < 10, each joined with every relation whose source is the row's
target. -/
def stepLevel (rels : List Rel) (lvl : List Row) : List Row :=
  (lvl.filter (fun d => d.depth < 10)).flatMap (fun d =>
    (rels.filter (fun pr => pr.source == d.target)).map (fun pr =>
      ⟨d.source, pr.target, d.depth + 1⟩))

/-- The level produced by the n-th iteration of the CTE. -/
def levels (rels : List Rel) : Nat → List Row
  | 0 => baseLevel rels
  | n + 1 => stepLevel rels (levels rels n)

/-- Insertion of a row into a list sorted by depth descending. -/
def insertByDepthDesc (x : Row) : List Row → List Row
  | [] => [x]
  | y :: ys =>
    if y.depth ≤ x.depth then x :: y :: ys else y :: insertByDepthDesc x ys

/-- Sort by depth descending (the ORDER BY of the query). -/
def sortByDepthDesc (l : List Row) : List Row :=
  l.foldr insertByDepthDesc []

/-- All rows accumulated by `UNION ALL`: the depth < 10 guard makes
iteration 10 and beyond empty, so ten levels are exhaustive. -/
def depChain (rels : List Rel) : List Row :=
  (List.range 10).flatMap (fun n => levels rels n)

/-- The embedded `analyze_dependencies` query: every accumulated
`dep_chain` row, ordered by depth descending. -/
def analyze_dependencies (rels : List Rel) : List Row :=
  sortByDepthDesc (depChain rels)

/-- Successors of a node along a given edge list. -/
def succs (es : List (Nat × Nat)) (n : Nat) : List Nat :=
  es.filterMap (fun e => if e.1 == n then some e.2 else none)

/-- One closure-expansion step over an edge list. -/
def expand (es : List (Nat × Nat)) (cur : List Nat) : List Nat :=
  (cur ++ cur.flatMap (succs es)).dedup

/-- Iterated closure expansion with explicit fuel. -/
def iterExpand (es : List (Nat × Nat)) : Nat → List Nat → List Nat
  | 0, cur => cur
  | k + 1, cur => iterExpand es k (expand es cur)

/-- The `DependsOn` subgraph of a relation list. -/
def depEdges (rels : List Rel) : List (Nat × Nat) :=
  rels.filterMap (fun r =>
    if r.rtype == "DEPENDS_ON" then some (r.source, r.target) else none)

/-- Modelled from the spec: the `DependsOn` subgraph contains a cycle
exactly when some `DependsOn` edge closes back on its own source, that
is, the edge's source is reachable from its target. -/
def hasCycleDependsOn (rels : List Rel) : Bool :=
  (depEdges rels).any (fun e =>
    (iterExpand (depEdges rels) ((depEdges rels).length + 1)
      [e.2]).contains e.1)

/-- The cyclic `DependsOn` instance A → B → C → A used by the spec's
cycle-detection scenario, as `pattern_relations` rows 1 → 2 → 3 → 1. -/
def cyclicRels : List Rel :=
  [⟨1, 2, "DEPENDS_ON"⟩, ⟨2, 3, "DEPENDS_ON"⟩, ⟨3, 1, "DEPENDS_ON"⟩]

end Comby.DepChain

namespace Comby.ClustersCTE

/-! ### Connected-components query (claim C5)

Embeds the `clusters` recursive CTE of the repository: the seed rows
are the patterns whose id appears in no `pattern_relations` row (as
source or target), each forming its own cluster; the recursive step
follows relations from a cluster member to its target, skipping targets
already recorded in that cluster; the final SELECT groups the rows by
cluster id. -/

/-- One row of the `pattern_relations` table as read by the query. -/
structure CRel where
  source : Nat
  target : Nat
  rtype : String
deriving DecidableEq

/-- Every pattern id mentioned by any relation row. -/
def relatedIds (rels : List CRel) : List Nat :=
  rels.flatMap (fun r => [r.source, r.target])

/-- Seed rows of the CTE: patterns in no relation, each its own
cluster. -/
def seeds (pats : List Nat) (rels : List CRel) : List (Nat × Nat) :=
  (pats.filter (fun p => !(relatedIds rels).contains p)).map
    (fun p => (p, p))

/-- Rows added by one recursive step: targets of relations out of a
recorded member, not yet recorded in that cluster. -/
def stepNew (rels : List CRel) (acc : List (Nat × Nat)) :
    List (Nat × Nat) :=
  (acc.flatMap (fun c =>
    rels.filterMap (fun pr =>
      if pr.source == c.1 && !acc.contains (pr.target, c.2) then
        some (pr.target, c.2)
      else none))).dedup

/-- Fueled iteration of the recursive step until no new row appears. -/
def iterClusters (rels : List CRel) : Nat → List (Nat × Nat) →
    List (Nat × Nat)
  | 0, acc => acc
  | k + 1, acc =>
    let nw := (stepNew rels acc).filter (fun r => !acc.contains r)
    if nw.isEmpty then acc else iterClusters rels k (acc ++ nw)

/-- All `(id, cluster_id)` rows accumulated by the CTE. -/
def clusterRows (pats : List Nat) (rels : List CRel) :
    List (Nat × Nat) :=
  iterClusters rels (pats.length * pats.length + 1) (seeds pats rels)

/-- The embedded query result: member ids grouped by cluster id, the
shape returned by `find_connected_components`. -/
def find_connected_components (pats : List Nat) (rels : List CRel) :
    List (List Nat) :=
  let rows := clusterRows pats rels
  ((rows.map (fun r => r.2)).dedup).map (fun cid =>
    (rows.filter (fun r => r.2 == cid)).map (fun r => r.1))

/-- Undirected edge list of a relation list. -/
def undirEdges (rels : List CRel) : List (Nat × Nat) :=
  rels.flatMap (fun r => [(r.source, r.target), (r.target, r.source)])

/-- Modelled from the spec: the connected component of a pattern under
undirected connectivity over all edge types. -/
def componentOf (pats : List Nat) (rels : List CRel) (p : Nat) :
    List Nat :=
  pats.filter (fun q =>
    (Comby.DepChain.iterExpand (undirEdges rels)
      ((undirEdges rels).length + 1) [p]).contains q)

/-- Modelled from the spec: the partition of patterns into undirected
connected components (union-find semantics). -/
def specComponents (pats : List Nat) (rels : List CRel) :
    List (List Nat) :=
  (pats.map (fun p => componentOf pats rels p)).dedup

/-- The two-finding instance used against the query: findings 1 and 2
joined by one `same_file` relation. -/
def pats2 : List Nat := [1, 2]

/-- The single relation row joining findings 1 and 2. -/
def rels2 : List CRel := [⟨1, 2, "same_file"⟩]

end Comby.ClustersCTE

namespace Comby.SimilarSearch

/-! ### Similarity search query (claim C2)

Embeds the similarity SQL of the repository: it selects every pattern
of the query's pattern type other than the query pattern itself,
computes `similarity = 1 - vec_distance_cosine(embedding, query
embedding)`, orders by similarity descending and applies `LIMIT 10`.
The query has no `WHERE similarity >= threshold` clause.
`vec_distance_cosine` itself belongs to the sqlite-vec extension, not
to this repository; it is modelled below as the cosine distance, exact
on vectors whose squared norms are perfect squares — which covers every
vector used in this development. -/

/-- One row of the `patterns` table as read by the query. -/
structure PRow where
  id : Nat
  filePath : String
  lineNumber : Nat
  codeSnippet : String
  severity : String
  patternType : String
  embedding : List Int
deriving DecidableEq

/-- Dot product of two integer vectors. -/
def dotI (a b : List Int) : Int :=
  ((a.zip b).map (fun p => p.1 * p.2)).foldl (· + ·) 0

/-- Modelled from the sqlite-vec extension (external to this
repository): cosine distance `1 - cos`, with the norms computed by the
exact integer square root (exact on perfect-square norms). -/
def vec_distance_cosine (a b : List Int) : ℚ :=
  1 - (dotI a b : ℚ) /
    ((Comby.natSqrtLin (dotI a a).toNat : ℚ) *
      (Comby.natSqrtLin (dotI b b).toNat : ℚ))

/-- Insertion of a scored row into a list sorted by similarity
descending. -/
def insertBySimDesc (x : Nat × ℚ) : List (Nat × ℚ) → List (Nat × ℚ)
  | [] => [x]
  | y :: ys =>
    if x.2 ≤ y.2 then y :: insertBySimDesc x ys else x :: y :: ys

/-- Sort by similarity descending (the ORDER BY of the query). -/
def sortBySimDesc (l : List (Nat × ℚ)) : List (Nat × ℚ) :=
  l.foldr insertBySimDesc []

/-- The embedded similarity query of `find_similar_patterns`: rows of
the same pattern type other than the query row, scored by
`1 - vec_distance_cosine`, ordered by similarity descending, `LIMIT`
10.  No threshold condition appears anywhere in it. -/
def find_similar_patterns (patterns : List PRow) (queryId : Nat) :
    List (Nat × ℚ) :=
  let qemb :=
    match patterns.find? (fun p => p.id == queryId) with
    | some p => p.embedding
    | none => []
  (sortBySimDesc
    ((patterns.filter (fun p =>
        p.patternType == "SQL_INJECTION" && p.id != queryId)).map
      (fun p => (p.id, 1 - vec_distance_cosine p.embedding qemb)))).take 10

/-- The stored query pattern: id 5 with embedding (1, 0). -/
def p5 : PRow :=
  ⟨5, "src/auth.py", 42, "q1", "CRITICAL", "SQL_INJECTION", [1, 0]⟩

/-- A second stored pattern: id 6 with embedding (3, 4), whose cosine
similarity to pattern 5 is 3/5. -/
def p6 : PRow :=
  ⟨6, "src/user.py", 85, "q2", "CRITICAL", "SQL_INJECTION", [3, 4]⟩

end Comby.SimilarSearch

namespace Comby

/-- Whitespace test used by trimming. -/
def isWs (c : Char) : Bool :=
  c == ' ' || c == '\n' || c == '\t' || c == '\r'

/-- Trim of a character list (the model of String.prototype.trim). -/
def trimL (l : List Char) : List Char :=
  ((l.dropWhile isWs).reverse.dropWhile isWs).reverse

/-- Case-sensitive ordered-substring test: `a` occurs and `b` occurs
after it (the model of a regular expression of the form a.*b without
the i flag). -/
def strOrdered (s a b : String) : Bool :=
  match dropAfterMatch s.data a.data with
  | some rest => containsL rest b.data
  | none => false

/-- Lower-cased copy of a string. -/
def lowerStr (s : String) : String := String.mk (lowerL s.data)

end Comby

namespace Comby.JS

/-! ### JavaScript value model (claims C9 and C10)

The four hook files are plain JavaScript.  `JSValue` models the values
their contexts can carry; the method-call helpers below model the JS
semantics the hooks rely on, including the `TypeError`s thrown by
calling a method on a value that does not have it.  `console.log` and
`console.error` output is collected as a list of lines; a step that
throws reports the lines it printed before throwing. -/

/-- A JavaScript value.  Numbers are modelled as integers: every number
the hooks compare against is an integer, and no hook computes with
fractional or NaN values on the paths any theorem below depends on. -/
inductive JSValue where
  | undefined
  | null
  | bool (b : Bool)
  | num (n : Int)
  | str (s : String)
  | arr (elems : List JSValue)
  | fn (f : String → JSValue)
  | obj (fields : List (String × JSValue))

/-- JavaScript truthiness. -/
def truthy : JSValue → Bool
  | .undefined => false
  | .null => false
  | .bool b => b
  | .num n => n != 0
  | .str s => s != ""
  | .arr _ => true
  | .fn _ => true
  | .obj _ => true

/-- String coercion, the model of template-literal interpolation and of
the implicit coercion applied by RegExp.prototype.test.  Array elements
are joined with commas; function sources are abbreviated. -/
def jsToString : JSValue → String
  | .undefined => "undefined"
  | .null => "null"
  | .bool b => if b then "true" else "false"
  | .num n => toString n
  | .str s => s
  | .fn _ => "function"
  | .arr xs => String.intercalate "," (xs.attach.map (fun x => jsToString x.1))
  | .obj _ => "[object Object]"
decreasing_by
  simp_wf
  have h := List.sizeOf_lt_of_mem x.2
  omega

/-- Property read on a value already known to be truthy (every property
access in the hooks is guarded by a truthiness check, so no access in
this model can be on undefined or null).  Non-objects have no own
properties and yield undefined. -/
def propOf (v : JSValue) (k : String) : JSValue :=
  match v with
  | .obj fields => (fields.lookup k).getD .undefined
  | _ => .undefined

/-- Strict equality against a string literal. -/
def jsStrictEqStr (v : JSValue) (s : String) : Bool :=
  match v with
  | .str t => t == s
  | _ => false

/-- Strict equality against the boolean true. -/
def jsStrictEqTrue : JSValue → Bool
  | .bool b => b
  | _ => false

/-- Strict equality against the boolean false. -/
def jsIsFalse : JSValue → Bool
  | .bool b => !b
  | _ => false

/-- A thrown JavaScript error, reduced to its message. -/
structure JSError where
  message : String
deriving DecidableEq

/-- The value every hook returns. -/
structure HookResult where
  continueExecution : Bool
deriving DecidableEq

/-- One statement group of a hook body: on success the console lines it
printed, on a throw the error together with the lines printed before
the throw. -/
abbrev JSStep := Except (JSError × List String) (List String)

/-- Outcome of a try block: a returned value with the collected output,
or a thrown error with the output printed up to the throw. -/
inductive Outcome where
  | ret (r : HookResult) (out : List String)
  | thrown (e : JSError) (out : List String)

/-- Runs the statement groups of a try body in order, accumulating
console output, stopping at the first throw; when all groups complete
the body returns continueExecution true, as every hook body does. -/
def chainSteps (acc : List String) : List JSStep → Outcome
  | [] => .ret ⟨true⟩ acc
  | s :: rest =>
    match s with
    | .error (e, o) => .thrown e (acc ++ o)
    | .ok o => chainSteps (acc ++ o) rest

/-- The catch clause shared by all four hooks: a thrown error is logged
via console.error and continueExecution true is returned anyway. -/
def catchWrap (hookName : String) (o : Outcome) : HookResult × List String :=
  match o with
  | .ret r out => (r, out)
  | .thrown e out =>
    (⟨true⟩, out ++ ["Error in " ++ hookName ++ " hook: " ++ e.message])

/-- The includes method: strings and arrays have it; calling it on any
other value throws a TypeError. -/
def jsIncludes (v : JSValue) (needle : String) : Except JSError Bool :=
  match v with
  | .str s => .ok (Comby.strContains s needle)
  | .arr xs => .ok (xs.any (fun x => jsStrictEqStr x needle))
  | _ => .error ⟨"includes is not a function"⟩

/-- The endsWith method of strings; any other receiver throws. -/
def jsEndsWith (v : JSValue) (suffix : String) : Except JSError Bool :=
  match v with
  | .str s => .ok (Comby.strEndsWith s suffix)
  | _ => .error ⟨"endsWith is not a function"⟩

/-- Element rendering of Array.prototype.join: null and undefined
become empty strings. -/
def joinElem : JSValue → String
  | .undefined => ""
  | .null => ""
  | v => jsToString v

/-- The expression typeof args === string ? args : args.join(...) used
by the pre-tool-use helpers; join throws on receivers that are neither
strings nor arrays. -/
def jsArgString (v : JSValue) : Except JSError String :=
  match v with
  | .str s => .ok s
  | .arr xs => .ok (String.intercalate " " (xs.map joinElem))
  | _ => .error ⟨"join is not a function"⟩

/-- The length property: arrays and strings have one, property access
on undefined or null throws, and other values yield undefined. -/
def jsLength (v : JSValue) : Except JSError JSValue :=
  match v with
  | .arr xs => .ok (.num (xs.length : Int))
  | .str s => .ok (.num (s.length : Int))
  | .undefined => .error ⟨"Cannot read properties of undefined"⟩
  | .null => .error ⟨"Cannot read properties of null"⟩
  | .obj fields => .ok ((fields.lookup "length").getD .undefined)
  | _ => .ok .undefined

/-- Numeric strict comparison v > k, modelled for number operands; the
other operand shapes reaching these comparisons in the hooks coerce to
NaN and compare false. -/
def numGt (v : JSValue) (k : Int) : Bool :=
  match v with
  | .num n => k < n
  | _ => false

/-- Numeric comparison v < k for number operands. -/
def numLt (v : JSValue) (k : Int) : Bool :=
  match v with
  | .num n => n < k
  | _ => false

/-- Numeric comparison v >= k for number operands. -/
def numGe (v : JSValue) (k : Int) : Bool :=
  match v with
  | .num n => k ≤ n
  | _ => false

/-- Numeric strict equality v === k for number operands. -/
def numEq (v : JSValue) (k : Int) : Bool :=
  match v with
  | .num n => n == k
  | _ => false

/-- The isEnabled helper shared verbatim by the two optional hooks
(each with its own configuration key): a falsy configuration is
disabled; a falsy config.get short-circuits to that falsy value; a
truthy config.get is called — throwing a TypeError when it is not a
function — and the result is compared strictly against true. -/
def isEnabledE (config : JSValue) (key : String) : Except JSError JSValue :=
  if truthy config = false then .ok (.bool false)
  else
    let g := propOf config "get"
    if truthy g = false then .ok g
    else
      match g with
      | .fn f => .ok (.bool (jsStrictEqTrue (f key)))
      | _ => .error ⟨"config.get is not a function"⟩

end Comby.JS

namespace Comby.Hooks.PreToolUse

/-! ### pre-tool-use.js -/

open Comby Comby.JS

/-- The execution context destructured by the hook. -/
structure Ctx where
  toolName : JSValue
  args : JSValue
  currentFile : JSValue
  codebase : JSValue

/-- Characters taken up to the first occurrence of `c`, none when `c`
is absent. -/
def takeUntilChar (c : Char) : List Char → Option (List Char)
  | [] => none
  | a :: t =>
    if a == c then some [] else (takeUntilChar c t).map (fun r => a :: r)

/-- First quoted segment of a character list, the model of the regular
expression matching a single- or double-quoted group. -/
def firstQuoted : List Char → Option String
  | [] => none
  | a :: t =>
    if a == Char.ofNat 39 || a == Char.ofNat 34 then
      match takeUntilChar a t with
      | some seg => some (String.mk seg)
      | none => firstQuoted t
    else firstQuoted t

/-- The extractGrepPattern helper: match on a non-string throws and the
internal catch returns null. -/
def extractGrepPattern (args : JSValue) : Option String :=
  match args with
  | .str s => firstQuoted s.data
  | _ => none

/-- The isSensitiveFile helper of this hook: a falsy path is not
sensitive, otherwise eight regular-expression tests modelled as
substring and ordered-substring matches on the coerced string. -/
def isSensitiveFile (filePath : JSValue) : Bool :=
  if truthy filePath = false then false
  else
    let s := jsToString filePath
    strContainsCI s "config" || strContainsCI s "credentials" ||
      strContainsCI s "secret" || strContains s ".env" ||
      strContainsCI s "password" || strOrderedCI s "api" "key" ||
      strContains s "key.json" || strContainsCI s "private"

/-- The isLargeScaleSearch regular expressions on the argument string;
the whitespace class after -R is modelled as one whitespace
character. -/
def isLargeScaleSearchStr (s : String) : Bool :=
  strOrdered s "grep" "-r" || strOrdered s "find" "." ||
    strContains s "-R " || strContains s "-R\t" ||
    strContains s "-R\n" || strContains s "--include=*"

/-- The refactoring keywords, including the literal find.*-replace
entry (includes is not a regular-expression match). -/
def refactoringKeywords : List String :=
  ["rename", "refactor", "replace", "sed", "find.*-replace"]

/-- The isRefactoringOperation keyword test on the lower-cased argument
string. -/
def isRefactoringStr (s : String) : Bool :=
  refactoringKeywords.any (fun k => strContains (lowerStr s) k)

/-- Pattern 1: the grep/find tip.  The short-circuit evaluation of
args.includes can throw. -/
def step1 (ctx : Ctx) : JSStep :=
  if jsStrictEqStr ctx.toolName "Bash" then
    match jsIncludes ctx.args "grep" with
    | .error e => .error (e, [])
    | .ok g =>
      match (if g then Except.ok true else jsIncludes ctx.args "find") with
      | .error e => .error (e, [])
      | .ok cond =>
        if cond then
          match extractGrepPattern ctx.args with
          | some p =>
            if p != "" then
              .ok ["💡 Tip: Consider using /comby-search \"" ++ p ++
                "\" for better pattern matching"]
            else .ok []
          | none => .ok []
        else .ok []
  else .ok []

/-- Pattern 2: security context detection; never throws. -/
def step2 (ctx : Ctx) : JSStep :=
  .ok (if isSensitiveFile ctx.currentFile then
    ["🔒 Security context detected: Analyzing sensitive file access",
     "   File: " ++ jsToString ctx.currentFile,
     "   Consider: Use /comby-analyze for security checks"]
  else [])

/-- Pattern 3: large-scale search detection; building the argument
string can throw. -/
def step3 (ctx : Ctx) : JSStep :=
  if jsStrictEqStr ctx.toolName "Bash" then
    match jsArgString ctx.args with
    | .error e => .error (e, [])
    | .ok s =>
      if isLargeScaleSearchStr s then
        .ok ["📊 Large-scale search detected",
          "   Consider using /comby-search for better performance and output options"]
      else .ok []
  else .ok []

/-- Pattern 4: refactoring detection; the argument string is built
unconditionally and can throw. -/
def step4 (ctx : Ctx) : JSStep :=
  match jsArgString ctx.args with
  | .error e => .error (e, [])
  | .ok s =>
    if isRefactoringStr s then
      .ok ["🔄 Refactoring operation detected",
        "   Tip: Pre-analysis with /comby-search helps identify all affected locations"]
    else .ok []

/-- The try block of the hook. -/
def tryBody (ctx : Ctx) : Outcome :=
  chainSteps [] [step1 ctx, step2 ctx, step3 ctx, step4 ctx]

/-- The execute function of pre-tool-use.js. -/
def execute (ctx : Ctx) : HookResult × List String :=
  catchWrap "pre-tool-use" (tryBody ctx)

end Comby.Hooks.PreToolUse

namespace Comby.Hooks.PostToolUse

/-! ### post-tool-use.js -/

open Comby Comby.JS

/-- The execution context destructured by the hook. -/
structure Ctx where
  toolName : JSValue
  result : JSValue
  duration : JSValue
  success : JSValue

/-- The countResults helper.  Note that typeof null is object, so a
null result reaches the matches property access and throws. -/
def countResults (result : JSValue) : Except JSError JSValue :=
  match result with
  | .num n => .ok (.num n)
  | .str s =>
    .ok (.num ((((linesOf s).filter (fun l => !(trimL l).isEmpty)).length : Int)))
  | .arr xs => .ok (.num (xs.length : Int))
  | .null => .error ⟨"Cannot read properties of null"⟩
  | .obj fields =>
    let m := (fields.lookup "matches").getD .undefined
    if truthy m then jsLength m else .ok (.num 0)
  | _ => .ok (.num 0)

/-- The console output of analyzeSearchResults for a given count. -/
def analyzeLogs (cnt : JSValue) : List String :=
  if numEq cnt 0 then ["ℹ️  No results found"]
  else if numEq cnt 1 then ["✅ Found 1 result"]
  else if numGt cnt 10 && numLt cnt 100 then
    ["✅ Found " ++ jsToString cnt ++ " results",
     "   Tip: Use /comby-inventory to export structured data"]
  else if numGe cnt 100 then
    ["⚠️  Found " ++ jsToString cnt ++ " results (large dataset)",
     "   Recommend: Export to JSON for analysis",
     "   Command: /comby-search <pattern> <path> -f json"]
  else []

/-- Rendering of (duration / 1000).toFixed(2); the digit padding of the
fractional part is approximated, which only affects log text. -/
def fixed2 (n : Int) : String :=
  toString (n / 1000) ++ "." ++ toString ((n % 1000) / 10)

/-- Pattern 1: search-result analysis when the tool was Bash or
Grep. -/
def step1 (ctx : Ctx) : JSStep :=
  if jsStrictEqStr ctx.toolName "Bash" || jsStrictEqStr ctx.toolName "Grep" then
    match countResults ctx.result with
    | .error e => .error (e, [])
    | .ok cnt => .ok (analyzeLogs cnt)
  else .ok []

/-- Pattern 2: performance monitoring; the quoting of the tool name in
the original template is omitted from the rendered line. -/
def step2 (ctx : Ctx) : JSStep :=
  .ok (if numGt ctx.duration 5000 then
    match ctx.duration with
    | .num n =>
      ["⏱️  Performance: Tool " ++ jsToString ctx.toolName ++ " took " ++
        fixed2 n ++ "s",
       "   Consider: Breaking down operation or using /comby-search for patterns"]
    | _ => []
  else [])

/-- Pattern 3: large-output analysis; counts the results again. -/
def step3 (ctx : Ctx) : JSStep :=
  match countResults ctx.result with
  | .error e => .error (e, [])
  | .ok cnt =>
    .ok (if numGt cnt 50 then
      ["📊 Large result set detected (" ++ jsToString cnt ++ " items)",
       "   Consider: Using /comby-search with JSON output for structured data"]
    else [])

/-- The hasErrorPatterns helper: false for non-strings, otherwise six
regular-expression tests modelled as substring matches. -/
def hasErrorPatterns (result : JSValue) : Bool :=
  match result with
  | .str s =>
    strContainsCI s "error" || strContainsCI s "exception" ||
      strContainsCI s "failed" || strContains s "ERROR" ||
      strContains s "Traceback" || strContainsCI s "undefined"
  | _ => false

/-- The console output of logErrorPatterns on the coerced result. -/
def logErrorLogs (rs : String) : List String :=
  (if strContains rs "ERROR" || strContains rs "Exception" ||
      strContains rs "Traceback" then
    ["   This might be a tool error or application error"]
  else []) ++
    (if strContainsCI rs "undefined" then
      ["   Undefined references detected - may indicate missing code"]
    else [])

/-- Pattern 4: error detection in the output; never throws. -/
def step4 (ctx : Ctx) : JSStep :=
  .ok (if hasErrorPatterns ctx.result then
    "⚠️  Potential errors detected in output" ::
      logErrorLogs (jsToString ctx.result)
  else [])

/-- The try block: a falsy success returns early with no output. -/
def tryBody (ctx : Ctx) : Outcome :=
  if truthy ctx.success = false then .ret ⟨true⟩ []
  else chainSteps [] [step1 ctx, step2 ctx, step3 ctx, step4 ctx]

/-- The execute function of post-tool-use.js. -/
def execute (ctx : Ctx) : HookResult × List String :=
  catchWrap "post-tool-use" (tryBody ctx)

end Comby.Hooks.PostToolUse

namespace Comby.Hooks.FileChangeAnalysis

/-! ### file-change-analysis.js -/

open Comby Comby.JS

/-- The execution context destructured by the hook. -/
structure Ctx where
  filePath : JSValue
  changeType : JSValue
  isDirty : JSValue
  config : JSValue

/-- The configuration key of this hook. -/
def fcaKey : String := "comby.hooks.fileChangeAnalysis"

/-- The isSensitiveFile helper of this hook: six regular-expression
tests, with no falsy guard on the path (RegExp.test coerces its
argument to a string). -/
def isSensitiveFile (filePath : JSValue) : Bool :=
  let s := jsToString filePath
  strContainsCI s "config" || strContainsCI s "credentials" ||
    strContainsCI s "secret" || strContains s ".env" ||
    strContainsCI s "password" || strContains s "key.json"

/-- The code extensions recognized by shouldAnalyzeFile. -/
def codeExtensions : List String :=
  [".py", ".js", ".ts", ".tsx", ".jsx", ".java", ".go", ".rb", ".php",
   ".cs", ".cpp", ".c", ".h", ".rs"]

/-- Sequential short-circuit of endsWith over the extensions. -/
def endsWithAny (v : JSValue) : List String → Except JSError Bool
  | [] => .ok false
  | e :: rest => do
    let b ← jsEndsWith v e
    if b then pure true else endsWithAny v rest

/-- The shouldAnalyzeFile helper: skips test and spec paths, then
checks the code extensions; both the includes and the endsWith calls
can throw.  The config parameter of the source is unused there. -/
def shouldAnalyzeFile (filePath : JSValue) : Except JSError Bool := do
  let t ← jsIncludes filePath "test"
  let sp ← if t then pure true else jsIncludes filePath "spec"
  if sp then pure false else endsWithAny filePath codeExtensions

/-- The suggestAnalysis helper, reached only after shouldAnalyzeFile
succeeded on the same path. -/
def suggestAnalysis (filePath : JSValue) : Except JSError (List String) := do
  if isSensitiveFile filePath then
    pure ["   /comby-analyze --focus security"]
  else do
    let t ← jsIncludes filePath "test"
    if t then pure ["   /comby-analyze --focus quality"]
    else pure ["   /comby-analyze"]

/-- Pattern 1: quick analysis of modified files; shouldAnalyzeFile can
throw before any log line appears. -/
def step1 (ctx : Ctx) : JSStep :=
  if jsStrictEqStr ctx.changeType "modified" then
    match shouldAnalyzeFile ctx.filePath with
    | .error e => .error (e, [])
    | .ok b =>
      if b then
        match suggestAnalysis ctx.filePath with
        | .error e =>
          .error (e, ["🔍 Running quick analysis on modified file..."])
        | .ok logs =>
          .ok ("🔍 Running quick analysis on modified file..." :: logs)
      else .ok []
  else .ok []

/-- Pattern 2: new sensitive file detection; never throws. -/
def step2 (ctx : Ctx) : JSStep :=
  .ok (if jsStrictEqStr ctx.changeType "created" &&
      isSensitiveFile ctx.filePath then
    ["🔒 New sensitive file detected",
     "   Recommend: Run /comby-analyze for security checks"]
  else [])

/-- Pattern 3: deleted file tracking; never throws. -/
def step3 (ctx : Ctx) : JSStep :=
  .ok (if jsStrictEqStr ctx.changeType "deleted" then
    ["🗑️  File deleted"]
  else [])

/-- The try block: the isEnabled gate returns continueExecution true
with no output when the hook is disabled; when enabled, the header line
is printed and the three patterns run in order. -/
def tryBody (ctx : Ctx) : Outcome :=
  match isEnabledE ctx.config fcaKey with
  | .error e => .thrown e []
  | .ok en =>
    if truthy en = false then .ret ⟨true⟩ []
    else
      chainSteps
        ["📝 File " ++ jsToString ctx.changeType ++ ": " ++
          jsToString ctx.filePath]
        [step1 ctx, step2 ctx, step3 ctx]

/-- The execute function of file-change-analysis.js. -/
def execute (ctx : Ctx) : HookResult × List String :=
  catchWrap "file-change-analysis" (tryBody ctx)

end Comby.Hooks.FileChangeAnalysis

namespace Comby.Hooks.PreCommitAnalysis

/-! ### pre-commit-analysis.js -/

open Comby Comby.JS

/-- The execution context destructured by the hook. -/
structure Ctx where
  stagedFiles : JSValue
  commitMessage : JSValue
  config : JSValue

/-- The configuration key of this hook. -/
def pcaKey : String := "comby.hooks.preCommitAnalysis"

/-- The isSensitiveFile helper of this hook: eight regular-expression
tests, no falsy guard. -/
def isSensitiveFile (filePath : JSValue) : Bool :=
  let s := jsToString filePath
  strContainsCI s "config" || strContainsCI s "credentials" ||
    strContainsCI s "secret" || strContains s ".env" ||
    strContainsCI s "password" || strOrderedCI s "api" "key" ||
    strContains s "key.json" || strContainsCI s "private"

/-- The config.get call of checkSecurityIssues, which has no guard on
the get property and throws when it is not a function. -/
def callGet (config : JSValue) (key : String) : Except JSError JSValue :=
  match propOf config "get" with
  | .fn f => .ok (f key)
  | _ => .error ⟨"config.get is not a function"⟩

/-- The checkSecurityIssues helper: a falsy securityFocus answers the
empty list; otherwise the staged files are filtered by sensitivity
(forEach on a non-array throws). -/
def checkSecurityIssues (stagedFiles config : JSValue) :
    Except JSError (List String) := do
  let focus ←
    if truthy config = false then pure false
    else do
      let v ← callGet config "comby.analysis.securityFocus"
      pure (!jsIsFalse v)
  if focus = false then pure []
  else
    match stagedFiles with
    | .arr xs => pure ((xs.filter isSensitiveFile).map jsToString)
    | _ => throw ⟨"stagedFiles.forEach is not a function"⟩

/-- Collects staged entries whose rendering contains TODO or WIP; the
includes call on a non-string element throws. -/
def collectTodo : List JSValue → Except JSError (List String)
  | [] => .ok []
  | f :: rest => do
    let a ← jsIncludes f "TODO"
    let b ← if a then pure true else jsIncludes f "WIP"
    let tail ← collectTodo rest
    if b then pure (jsToString f :: tail) else pure tail

/-- The checkIncompleteCode helper. -/
def checkIncompleteCode (stagedFiles : JSValue) :
    Except JSError (List String) :=
  match stagedFiles with
  | .arr xs => collectTodo xs
  | _ => .error ⟨"stagedFiles.forEach is not a function"⟩

/-- The Conventional Commits types of the message-quality check. -/
def conventionalTypes : List String :=
  ["feat", "fix", "docs", "style", "refactor", "perf", "test", "chore"]

/-- The conventional-commit regular expression, modelled as a type
followed by a colon, or by a parenthesized scope and a colon. -/
def isConventional (s : String) : Bool :=
  conventionalTypes.any (fun t =>
    strStartsWith s (t ++ ":") ||
      (strStartsWith s (t ++ "(") && strContains s "):"))

/-- The analyzeCommitMessage helper: the regular-expression test
coerces the message, possibly printing the format tip, and the
subsequent split call throws on truthy non-string messages after the
tip lines were already printed. -/
def analyzeCommitMessage (msg : JSValue) : JSStep :=
  let s := jsToString msg
  let tipLogs :=
    if isConventional s then []
    else
      ["💡 Commit message tip: Consider using Conventional Commits format",
       "   Format: <type>(<scope>): <description>",
       "   Example: feat(auth): add JWT authentication"]
  match msg with
  | .str t =>
    let words := splitChar ' ' t.data
    .ok (tipLogs ++
      (if words.length < 3 then
        ["💡 Commit message too short - consider being more descriptive"]
      else []))
  | _ => .error (⟨"message.split is not a function"⟩, tipLogs)

/-- Pattern 1: security issues in the staged files. -/
def step1 (ctx : Ctx) : JSStep :=
  match checkSecurityIssues ctx.stagedFiles ctx.config with
  | .error e => .error (e, [])
  | .ok issues =>
    .ok (if issues.length > 0 then
      ("🔒 Potential security issues in " ++ toString issues.length ++
          " file(s):") ::
        (issues.map (fun f => "   - " ++ f) ++
          ["   Recommend: Run /comby-analyze --focus security"])
    else [])

/-- Pattern 2: TODO and WIP markers in the staged files. -/
def step2 (ctx : Ctx) : JSStep :=
  match checkIncompleteCode ctx.stagedFiles with
  | .error e => .error (e, [])
  | .ok marked =>
    .ok (if marked.length > 0 then
      ("⚠️  TODO/FIXME markers found in " ++ toString marked.length ++
          " file(s)") :: marked.map (fun f => "   - " ++ f)
    else [])

/-- Pattern 3: commit-message quality, only for truthy messages. -/
def step3 (ctx : Ctx) : JSStep :=
  if truthy ctx.commitMessage then analyzeCommitMessage ctx.commitMessage
  else .ok []

/-- Pattern 4: large-commit detection; stagedFiles.length was already
read successfully by the header, so this read yields the same value. -/
def step4 (ctx : Ctx) : JSStep :=
  match jsLength ctx.stagedFiles with
  | .error e => .error (e, [])
  | .ok len =>
    .ok (if numGt len 20 then
      ["📊 Large commit detected (" ++ jsToString len ++ " files)",
       "   Consider: Breaking into smaller, focused commits"]
    else [])

/-- The try block: the isEnabled gate, then the header template — whose
stagedFiles.length read can throw before anything is printed — then the
four patterns in order. -/
def tryBody (ctx : Ctx) : Outcome :=
  match isEnabledE ctx.config pcaKey with
  | .error e => .thrown e []
  | .ok en =>
    if truthy en = false then .ret ⟨true⟩ []
    else
      match jsLength ctx.stagedFiles with
      | .error e => .thrown e []
      | .ok len =>
        chainSteps
          ["📦 Pre-commit analysis: " ++ jsToString len ++ " file(s) staged"]
          [step1 ctx, step2 ctx, step3 ctx, step4 ctx]

/-- The execute function of pre-commit-analysis.js. -/
def execute (ctx : Ctx) : HookResult × List String :=
  catchWrap "pre-commit-analysis" (tryBody ctx)

end Comby.Hooks.PreCommitAnalysis

namespace Comby.JS

/-- The property every hook body maintains: a completed try block
returned continueExecution true (a thrown body is handled by the catch
clause). -/
def OutcomeContinues : Outcome → Prop
  | .ret r _ => r.continueExecution = true
  | .thrown _ _ => True

end Comby.JS

namespace Comby.PatternStore

/-- The unique-key projection of a raw finding. -/
def rawKey (r : RawFinding) : String × String × Nat :=
  (r.filePath, r.patternType, r.lineNumber)

end Comby.PatternStore

namespace Comby.Staleness

/-- A concrete state with one fresh finding in a.py and one snapshot of
a.py under hash h1, used to witness the staleness theorem. -/
def wMem : MemState :=
  ⟨[⟨1, "a.py", "SQL_INJECTION", "CRITICAL", false, 10⟩],
   [⟨"a.py", "h1", 10⟩]⟩

end Comby.Staleness

namespace Comby.ClaimC10

/-! ### Formal statement of claim C10 and its instances -/

open Comby.JS Comby.Hooks

/-- The configuration has no get method: whatever its get property is,
it is not a function. -/
def LacksGetMethod (config : JSValue) : Prop :=
  ∀ f, propOf config "get" ≠ .fn f

/-- The configuration's get method maps the key to a value other than
exactly true. -/
def MapsKeyNotTrue (config : JSValue) (key : String) : Prop :=
  ∃ f, propOf config "get" = .fn f ∧ f key ≠ .bool true

/-- The hypothesis of claim C10 for one hook: the configuration is
absent (falsy), lacks a get method, or maps the hook's key to a value
other than exactly true. -/
def ClaimHyp (config : JSValue) (key : String) : Prop :=
  truthy config = false ∨ LacksGetMethod config ∨ MapsKeyNotTrue config key

/-- Claim C10 as stated: for every such context the two optional hooks
return continueExecution true immediately with no console output. -/
def Statement : Prop :=
  ∀ (c3 : FileChangeAnalysis.Ctx) (c4 : PreCommitAnalysis.Ctx),
    (ClaimHyp c3.config FileChangeAnalysis.fcaKey →
      FileChangeAnalysis.execute c3 = (⟨true⟩, [])) ∧
    (ClaimHyp c4.config PreCommitAnalysis.pcaKey →
      PreCommitAnalysis.execute c4 = (⟨true⟩, []))

/-- The amended hypothesis: the configuration is absent (falsy), its
get property is absent or falsy, or its get method maps the hook's key
to a value other than exactly true.  A truthy non-function get property
is excluded: there the call throws and the catch clause logs a line. -/
def DisabledCleanly (config : JSValue) (key : String) : Prop :=
  truthy config = false ∨ truthy (propOf config "get") = false ∨
    MapsKeyNotTrue config key

/-- A configuration whose get property is the number 5: it lacks a get
method, and calling it throws a TypeError. -/
def badConfig : JSValue := .obj [("get", .num 5)]

/-- A file-change context carrying `badConfig`. -/
def ctxBadFC : FileChangeAnalysis.Ctx :=
  ⟨.str "src/app.py", .str "modified", .bool false, badConfig⟩

/-- A configuration whose get method answers false for every key. -/
def offConfig : JSValue := .obj [("get", .fn (fun _ => .bool false))]

/-- A file-change context carrying `offConfig`. -/
def ctxOffFC : FileChangeAnalysis.Ctx :=
  ⟨.str "src/app.py", .str "modified", .bool false, offConfig⟩

/-- A pre-commit context carrying `offConfig`. -/
def ctxOffPC : PreCommitAnalysis.Ctx :=
  ⟨.arr [.str "a.py"], .str "feat: add", offConfig⟩

end Comby.ClaimC10

/-! ## Theorems -/

namespace Comby.JS

theorem outcomeContinues_chainSteps :
    ∀ (steps : List JSStep) (acc : List String),
      OutcomeContinues (chainSteps acc steps)
  | [], _ => rfl
  | s :: rest, acc => by
    obtain ⟨o⟩ | ⟨o⟩ := s
    · obtain ⟨e, out⟩ := o
      exact trivial
    · exact outcomeContinues_chainSteps rest (acc ++ o)

theorem catchWrap_continues (name : String) (o : Outcome)
    (h : OutcomeContinues o) :
    (catchWrap name o).1.continueExecution = true := by
  cases o with
  | ret r out => exact h
  | thrown e out => rfl

end Comby.JS

theorem preToolUse_continues (ctx : Comby.Hooks.PreToolUse.Ctx) :
    (Comby.Hooks.PreToolUse.execute ctx).1.continueExecution = true :=
  Comby.JS.catchWrap_continues _ _
    (Comby.JS.outcomeContinues_chainSteps _ _)

theorem postToolUse_continues (ctx : Comby.Hooks.PostToolUse.Ctx) :
    (Comby.Hooks.PostToolUse.execute ctx).1.continueExecution = true := by
  refine Comby.JS.catchWrap_continues _ _ ?_
  unfold Comby.Hooks.PostToolUse.tryBody
  split
  · rfl
  · exact Comby.JS.outcomeContinues_chainSteps _ _

theorem fileChange_continues (ctx : Comby.Hooks.FileChangeAnalysis.Ctx) :
    (Comby.Hooks.FileChangeAnalysis.execute ctx).1.continueExecution = true := by
  refine Comby.JS.catchWrap_continues _ _ ?_
  unfold Comby.Hooks.FileChangeAnalysis.tryBody
  split
  · exact trivial
  · split
    · rfl
    · exact Comby.JS.outcomeContinues_chainSteps _ _

theorem preCommit_continues (ctx : Comby.Hooks.PreCommitAnalysis.Ctx) :
    (Comby.Hooks.PreCommitAnalysis.execute ctx).1.continueExecution = true := by
  refine Comby.JS.catchWrap_continues _ _ ?_
  unfold Comby.Hooks.PreCommitAnalysis.tryBody
  split
  · exact trivial
  · split
    · rfl
    · split
      · exact trivial
      · exact Comby.JS.outcomeContinues_chainSteps _ _

/-- C9: for every execution context, the execute function of each of
the four plugin hooks returns continueExecution true — every return
site of every try block returns that value, and when any internal step
throws, the catch clause logs the error and returns the same value, so
no hook invocation rejects or blocks tool execution. -/
theorem c9_hooks_always_continue :
    ∀ (c1 : Comby.Hooks.PreToolUse.Ctx) (c2 : Comby.Hooks.PostToolUse.Ctx)
      (c3 : Comby.Hooks.FileChangeAnalysis.Ctx)
      (c4 : Comby.Hooks.PreCommitAnalysis.Ctx),
      (Comby.Hooks.PreToolUse.execute c1).1.continueExecution = true ∧
        (Comby.Hooks.PostToolUse.execute c2).1.continueExecution = true ∧
        (Comby.Hooks.FileChangeAnalysis.execute c3).1.continueExecution = true ∧
        (Comby.Hooks.PreCommitAnalysis.execute c4).1.continueExecution = true :=
  fun c1 c2 c3 c4 =>
    ⟨preToolUse_continues c1, postToolUse_continues c2,
      fileChange_continues c3, preCommit_continues c4⟩

namespace Comby.JS

theorem strictEqTrue_eq_false (v : JSValue) (h : v ≠ .bool true) :
    jsStrictEqTrue v = false := by
  cases v with
  | bool b =>
    cases b with
    | true => exact absurd rfl h
    | false => rfl
  | _ => rfl

theorem isEnabledE_disabled (config : JSValue) (key : String)
    (h : Comby.ClaimC10.DisabledCleanly config key) :
    ∃ v, isEnabledE config key = .ok v ∧ truthy v = false := by
  rcases h with h | h | ⟨f, hf, hne⟩
  · exact ⟨.bool false, by simp [isEnabledE, h], rfl⟩
  · by_cases hc : truthy config = false
    · exact ⟨.bool false, by simp [isEnabledE, hc], rfl⟩
    · exact ⟨propOf config "get", by simp [isEnabledE, hc, h], h⟩
  · by_cases hc : truthy config = false
    · exact ⟨.bool false, by simp [isEnabledE, hc], rfl⟩
    · refine ⟨.bool false, ?_, rfl⟩
      simp only [isEnabledE, hc, if_false, hf]
      simp [truthy, strictEqTrue_eq_false _ hne]

end Comby.JS

/-- C10 counterexample: the claim quantifies over configurations that
lack a get method, but a configuration whose get property is a truthy
non-function — here the number 5 — lacks a get method and still makes
the hook print a console.error line: the isEnabled call throws a
TypeError, the catch clause logs it, and only then is continueExecution
true returned.  The output is therefore not empty, refuting the claim
as stated. -/
theorem c10_counterexample : ¬ Comby.ClaimC10.Statement := by
  intro h
  have hyp : Comby.ClaimC10.ClaimHyp Comby.ClaimC10.badConfig
      Comby.Hooks.FileChangeAnalysis.fcaKey := by
    refine Or.inr (Or.inl ?_)
    intro f hf
    have : Comby.JS.propOf Comby.ClaimC10.badConfig "get" =
        Comby.JS.JSValue.num 5 := rfl
    rw [this] at hf
    exact Comby.JS.JSValue.noConfusion hf
  have h1 := (h Comby.ClaimC10.ctxBadFC Comby.ClaimC10.ctxOffPC).1 hyp
  have h2 : Comby.Hooks.FileChangeAnalysis.execute Comby.ClaimC10.ctxBadFC =
      (⟨true⟩,
        ["Error in file-change-analysis hook: config.get is not a function"]) :=
    rfl
  rw [h2] at h1
  simp at h1

/-- C10 amended: for every context in which the plugin configuration is
absent or falsy, has an absent or falsy get property, or has a get
method mapping the hook's config key to any value other than exactly
true, the file-change-analysis and pre-commit-analysis hooks return
continueExecution true immediately and produce no console output and no
analysis, regardless of the other context fields.  (A truthy
non-function get property instead throws inside the try block; the
error is caught and logged and continueExecution true is still
returned.) -/
theorem c10_amended_disabled_hooks_silent
    (c3 : Comby.Hooks.FileChangeAnalysis.Ctx)
    (c4 : Comby.Hooks.PreCommitAnalysis.Ctx)
    (h3 : Comby.ClaimC10.DisabledCleanly c3.config
      Comby.Hooks.FileChangeAnalysis.fcaKey)
    (h4 : Comby.ClaimC10.DisabledCleanly c4.config
      Comby.Hooks.PreCommitAnalysis.pcaKey) :
    Comby.Hooks.FileChangeAnalysis.execute c3 = (⟨true⟩, []) ∧
      Comby.Hooks.PreCommitAnalysis.execute c4 = (⟨true⟩, []) := by
  obtain ⟨v3, he3, ht3⟩ := Comby.JS.isEnabledE_disabled _ _ h3
  obtain ⟨v4, he4, ht4⟩ := Comby.JS.isEnabledE_disabled _ _ h4
  constructor
  · show Comby.JS.catchWrap _ (Comby.Hooks.FileChangeAnalysis.tryBody c3) = _
    unfold Comby.Hooks.FileChangeAnalysis.tryBody
    rw [he3]
    simp [ht3, Comby.JS.catchWrap]
  · show Comby.JS.catchWrap _ (Comby.Hooks.PreCommitAnalysis.tryBody c4) = _
    unfold Comby.Hooks.PreCommitAnalysis.tryBody
    rw [he4]
    simp [ht4, Comby.JS.catchWrap]

/-- Witness for the amended C10 theorem: a configuration whose get
method answers false is disabled cleanly, and both hooks return
continueExecution true with no output on concrete contexts carrying
it. -/
theorem c10_amended_witness :
    Comby.ClaimC10.DisabledCleanly Comby.ClaimC10.offConfig
        Comby.Hooks.FileChangeAnalysis.fcaKey ∧
      Comby.ClaimC10.DisabledCleanly Comby.ClaimC10.offConfig
        Comby.Hooks.PreCommitAnalysis.pcaKey ∧
      (Comby.Hooks.FileChangeAnalysis.execute Comby.ClaimC10.ctxOffFC =
          (⟨true⟩, []) ∧
        Comby.Hooks.PreCommitAnalysis.execute Comby.ClaimC10.ctxOffPC =
          (⟨true⟩, [])) :=
  ⟨Or.inr (Or.inr ⟨fun _ => .bool false, rfl, by simp⟩),
   Or.inr (Or.inr ⟨fun _ => .bool false, rfl, by simp⟩),
   c10_amended_disabled_hooks_silent Comby.ClaimC10.ctxOffFC
     Comby.ClaimC10.ctxOffPC
     (Or.inr (Or.inr ⟨fun _ => .bool false, rfl, by simp⟩))
     (Or.inr (Or.inr ⟨fun _ => .bool false, rfl, by simp⟩))⟩

/-- C1: on the cyclic DependsOn instance 1 → 2 → 3 → 1 the DependsOn
subgraph contains a cycle, yet the repository's critical-path query
(the recursive CTE of analyze_dependencies, whose result type has no
error outcome at all) returns a non-empty list of chain rows, silently
truncated at depth 10 — it neither fails with CyclicDependencyError nor
refrains from returning a path. -/
theorem c1_critical_path_cycle_truncated :
    Comby.DepChain.hasCycleDependsOn Comby.DepChain.cyclicRels = true ∧
      Comby.DepChain.analyze_dependencies Comby.DepChain.cyclicRels ≠ [] ∧
      ∃ row ∈ Comby.DepChain.analyze_dependencies Comby.DepChain.cyclicRels,
        row.depth = 10 := by
  decide

/-- C5: on two findings joined by one same_file relation, the
repository's clusters CTE — which seeds clusters only with patterns
appearing in no relation — returns no cluster at all, so neither
finding appears in any returned cluster, while the specified undirected
connectivity partition is the single cluster containing both. -/
theorem c5_clusters_cte_drops_connected_findings :
    Comby.ClustersCTE.find_connected_components Comby.ClustersCTE.pats2
        Comby.ClustersCTE.rels2 = [] ∧
      Comby.ClustersCTE.specComponents Comby.ClustersCTE.pats2
        Comby.ClustersCTE.rels2 = [[1, 2]] := by
  decide

/-- C2: with threshold 0.75 and limit 10, the repository's similarity
query — which has no threshold condition — returns pattern 6 with
similarity 3/5, strictly below the threshold: the result is padded with
a below-threshold entry instead of being shorter. -/
theorem c2_search_returns_below_threshold :
    Comby.SimilarSearch.find_similar_patterns
        [Comby.SimilarSearch.p5, Comby.SimilarSearch.p6] 5 =
      [(6, 3 / 5)] ∧ (3 / 5 : ℚ) < 3 / 4 := by
  have e1 : Comby.SimilarSearch.find_similar_patterns
      [Comby.SimilarSearch.p5, Comby.SimilarSearch.p6] 5 =
      [(6, 1 - Comby.SimilarSearch.vec_distance_cosine [3, 4] [1, 0])] := rfl
  have d1 : Comby.SimilarSearch.dotI [3, 4] [1, 0] = 3 := by decide
  have d2 : (Comby.SimilarSearch.dotI [3, 4] [3, 4]).toNat = 25 := by decide
  have d3 : (Comby.SimilarSearch.dotI [1, 0] [1, 0]).toNat = 1 := by decide
  have s1 : Comby.natSqrtLin 25 = 5 := by decide
  have s2 : Comby.natSqrtLin 1 = 1 := by decide
  have e2 : (1 : ℚ) - Comby.SimilarSearch.vec_distance_cosine [3, 4] [1, 0] =
      3 / 5 := by
    rw [Comby.SimilarSearch.vec_distance_cosine, d1, d2, d3, s1, s2]
    norm_num
  rw [e1, e2]
  norm_num

/-- C4: after removeNode(id), an edge belongs to the relation store
exactly when it belonged before and is not incident to the removed id —
so no edge with source or target equal to the purged finding remains,
for every relation type, and non-incident edges are untouched. -/
theorem c4_remove_node_cascades_edges :
    ∀ (g : Comby.RelationGraph.Graph) (id : Nat)
      (e : Comby.RelationGraph.Edge),
      e ∈ (Comby.RelationGraph.removeNode g id).edges ↔
        e ∈ g.edges ∧ e.source ≠ id ∧ e.target ≠ id := by
  intro g id e
  simp [Comby.RelationGraph.removeNode, List.mem_filter, and_assoc]

theorem padTo_length (n : Nat) (xs : List Int) :
    (Comby.Embedding.padTo n xs).length = n := by
  simp [Comby.Embedding.padTo]

/-- C6: embed is a pure function of the code snippet and the pattern
type — the model built from the documented four feature blocks has no
other argument, no state and no randomness, so two calls on equal
inputs are identical — and its output always has the documented fixed
length of 768 entries. -/
theorem c6_embed_deterministic_fixed_length :
    ∀ (code patternType : String),
      (Comby.Embedding.embed_code_snippet code patternType).length = 768 ∧
        Comby.Embedding.embed_code_snippet code patternType =
          Comby.Embedding.embed_code_snippet code patternType := by
  intro code patternType
  refine ⟨?_, rfl⟩
  simp [Comby.Embedding.embed_code_snippet, padTo_length]

/-- C7: when the supplied hash differs from the latest recorded
snapshot hash for the file, markStale deletes nothing, flags every
prior finding of that file stale (still present in the store), the
default query excludes every stale finding, and every finding — stale
ones included — is returned when stale findings are explicitly
requested. -/
theorem c7_mark_stale_flags_not_deletes
    (st : Comby.Staleness.MemState) (fp h h0 : String)
    (hl : Comby.Staleness.latestSnapshotHash st fp = some h0)
    (hne : h0 ≠ h) :
    (Comby.Staleness.markStale st fp h).findings.length =
        st.findings.length ∧
      (∀ f ∈ st.findings, f.filePath = fp →
        { f with stale := true } ∈
          (Comby.Staleness.markStale st fp h).findings) ∧
      (∀ f ∈ Comby.Staleness.get_patterns
          (Comby.Staleness.markStale st fp h) none false,
        f.stale = false) ∧
      (∀ f ∈ (Comby.Staleness.markStale st fp h).findings,
        f ∈ Comby.Staleness.get_patterns
          (Comby.Staleness.markStale st fp h) none true) := by
  have hms : Comby.Staleness.markStale st fp h =
      { st with findings := st.findings.map (fun f =>
          if f.filePath == fp then { f with stale := true } else f) } := by
    rw [Comby.Staleness.markStale, hl]
    simp [hne]
  rw [hms]
  refine ⟨by simp, ?_, ?_, ?_⟩
  · intro f hf hfp
    have := List.mem_map_of_mem
      (fun f => if f.filePath == fp then { f with stale := true } else f) hf
    simpa [hfp] using this
  · intro f hf
    have := (List.mem_filter.mp hf).2
    simp only [Bool.and_eq_true, Bool.or_eq_true, Bool.not_eq_true'] at this
    rcases this.1 with h' | h'
    · exact absurd h' (by simp)
    · exact h'
  · intro f hf
    simpa [Comby.Staleness.get_patterns] using hf

/-- Witness for C7 at a concrete store: one fresh finding in a.py, one
snapshot of a.py under hash h1, and markStale with the different hash
h2. -/
theorem c7_mark_stale_witness :
    (Comby.Staleness.latestSnapshotHash Comby.Staleness.wMem "a.py" =
        some "h1" ∧ "h1" ≠ "h2") ∧
      ((Comby.Staleness.markStale Comby.Staleness.wMem "a.py"
            "h2").findings.length = Comby.Staleness.wMem.findings.length ∧
        (∀ f ∈ Comby.Staleness.wMem.findings, f.filePath = "a.py" →
          { f with stale := true } ∈
            (Comby.Staleness.markStale Comby.Staleness.wMem "a.py"
              "h2").findings) ∧
        (∀ f ∈ Comby.Staleness.get_patterns
            (Comby.Staleness.markStale Comby.Staleness.wMem "a.py" "h2")
            none false, f.stale = false) ∧
        (∀ f ∈ (Comby.Staleness.markStale Comby.Staleness.wMem "a.py"
            "h2").findings,
          f ∈ Comby.Staleness.get_patterns
            (Comby.Staleness.markStale Comby.Staleness.wMem "a.py" "h2")
            none true)) :=
  ⟨⟨by decide, by decide⟩,
   c7_mark_stale_flags_not_deletes Comby.Staleness.wMem "a.py" "h2" "h1"
     (by decide) (by decide)⟩

/-- C8: annotate fails with InvalidAnnotationTarget exactly when
neither a finding id nor a file path is supplied; with a finding id it
succeeds for every store — the finding's existence is never checked at
write time — likewise with only a file path; and the stored annotation
row survives the purge of any finding, with its pattern id set to null
exactly when its own target was the purged finding. -/
theorem c8_annotate_contract :
    ∀ (st : Comby.AnnStore.AState) (fp : Option String)
      (tag note : String) (now : Nat),
      (∀ fid, Comby.AnnStore.annotate st fid fp tag note now =
          .error .InvalidAnnotationTarget ↔ fid = none ∧ fp = none) ∧
        (∀ i, Comby.AnnStore.annotate st (some i) fp tag note now =
          .ok { st with annotations :=
            st.annotations ++ [⟨some i, fp, tag, note, now⟩] }) ∧
        (∀ s, Comby.AnnStore.annotate st none (some s) tag note now =
          .ok { st with annotations :=
            st.annotations ++ [⟨none, some s, tag, note, now⟩] }) ∧
        (∀ i purged,
          (⟨if purged = i then none else some i, fp, tag, note, now⟩ :
              Comby.AnnStore.AnnRow) ∈
            (Comby.AnnStore.purgeFinding
              { st with annotations :=
                st.annotations ++ [⟨some i, fp, tag, note, now⟩] }
              purged).annotations) := by
  intro st fp tag note now
  refine ⟨?_, ?_, ?_, ?_⟩
  · intro fid
    constructor
    · intro h
      by_contra hc
      have : (fid.isNone && fp.isNone) = false := by
        cases fid <;> cases fp <;> simp_all
      rw [Comby.AnnStore.annotate, this] at h
      simp at h
    · rintro ⟨rfl, rfl⟩
      rfl
  · intro i
    rfl
  · intro s
    rfl
  · intro i purged
    have hmem : (⟨some i, fp, tag, note, now⟩ : Comby.AnnStore.AnnRow) ∈
        st.annotations ++ [⟨some i, fp, tag, note, now⟩] := by
      simp
    have := List.mem_map_of_mem (fun a =>
      if a.patternId == some purged then { a with patternId := none }
      else a) hmem
    by_cases hpi : purged = i
    · subst hpi
      simp [Comby.AnnStore.purgeFinding]
    · have hne : (some i == some purged) = false := by
        simp [Ne.symm hpi]
      simpa [Comby.AnnStore.purgeFinding, hne, hpi] using this

namespace Comby.PatternStore

theorem keyMatches_refreshRow (r r' : RawFinding) (t : Nat) (f : Finding) :
    keyMatches (refreshRow r t f) r' = keyMatches f r' := rfl

theorem tripleKey_refreshRow (r : RawFinding) (t : Nat) (f : Finding) :
    tripleKey (refreshRow r t f) = tripleKey f := rfl

theorem find?_refreshAll (l : List Finding) (r : RawFinding) (t : Nat) :
    (refreshAll r t l).find? (fun f => keyMatches f r) =
      (l.find? (fun f => keyMatches f r)).map
        (fun g => if keyMatches g r then refreshRow r t g else g) := by
  unfold refreshAll
  rw [List.find?_map]
  have hcomp : ((fun f => keyMatches f r) ∘
      fun g => if keyMatches g r = true then refreshRow r t g else g) =
      fun f => keyMatches f r := by
    funext g
    by_cases h : keyMatches g r <;>
      simp [Function.comp, h, keyMatches_refreshRow]
  rw [hcomp]

theorem length_refreshAll (l : List Finding) (r : RawFinding) (t : Nat) :
    (refreshAll r t l).length = l.length := by
  simp [refreshAll]

theorem map_tripleKey_refreshAll (l : List Finding) (r : RawFinding)
    (t : Nat) : (refreshAll r t l).map tripleKey = l.map tripleKey := by
  unfold refreshAll
  rw [List.map_map]
  apply List.map_congr_left
  intro g _
  by_cases h : keyMatches g r <;>
    simp [h, Function.comp, tripleKey_refreshRow]

theorem keyMatches_of_tripleKey (g : Finding) (r : RawFinding)
    (h : tripleKey g = rawKey r) : keyMatches g r = true := by
  simp only [tripleKey, rawKey, Prod.mk.injEq] at h
  simp [keyMatches, h.1, h.2.1, h.2.2]

theorem uniqueTriples_ingestOne (s : Store) (r : RawFinding) (t : Nat)
    (h : UniqueTriples s) : UniqueTriples (ingestOne s r t).1 := by
  unfold ingestOne
  cases hf : s.findings.find? (fun f => keyMatches f r) with
  | some f =>
    show ((refreshAll r t s.findings).map tripleKey).Nodup
    rw [map_tripleKey_refreshAll]
    exact h
  | none =>
    show ((s.findings ++ [_]).map tripleKey).Nodup
    rw [List.map_append, List.nodup_append]
    refine ⟨h, by simp, ?_⟩
    intro a ha hb
    simp only [List.map_cons, List.map_nil, List.mem_singleton] at hb
    obtain ⟨g, hg, hgk⟩ := List.mem_map.mp ha
    have hnm := List.find?_eq_none.mp hf g hg
    apply hnm
    apply keyMatches_of_tripleKey
    rw [hgk, hb]
    rfl

theorem uniqueTriples_ingestList :
    ∀ (rs : List (RawFinding × Nat)) (s : Store),
      UniqueTriples s → UniqueTriples (ingestList s rs)
  | [], _, h => h
  | p :: rs, s, h =>
    uniqueTriples_ingestList rs (ingestOne s p.1 p.2).1
      (uniqueTriples_ingestOne s p.1 p.2 h)

theorem keyMatches_fresh (s : Store) (r : RawFinding) (t : Nat) :
    keyMatches
      ⟨s.nextId, r.filePath, r.patternType, r.lineNumber, r.codeSnippet,
        r.severity, t⟩ r = true := by
  simp [keyMatches]

theorem ingestOne_eq_some (s : Store) (r : RawFinding) (t : Nat)
    (f : Finding)
    (h : s.findings.find? (fun g => keyMatches g r) = some f) :
    ingestOne s r t = ({ s with findings := refreshAll r t s.findings },
      f.id) := by
  simp only [ingestOne, h]

theorem ingestOne_eq_none (s : Store) (r : RawFinding) (t : Nat)
    (h : s.findings.find? (fun g => keyMatches g r) = none) :
    ingestOne s r t =
      ({ findings := s.findings ++
          [⟨s.nextId, r.filePath, r.patternType, r.lineNumber,
            r.codeSnippet, r.severity, t⟩],
         nextId := s.nextId + 1 }, s.nextId) := by
  simp only [ingestOne, h]

theorem ingestOne_twice (s : Store) (r : RawFinding) (t₁ t₂ : Nat) :
    (ingestOne (ingestOne s r t₁).1 r t₂).2 = (ingestOne s r t₁).2 ∧
      ((ingestOne (ingestOne s r t₁).1 r t₂).1).findings.length =
        ((ingestOne s r t₁).1).findings.length ∧
      (((ingestOne (ingestOne s r t₁).1 r t₂).1).findings.find?
          (fun f => keyMatches f r)).map
        (fun f => (f.detectedAt, f.codeSnippet)) =
        some (t₂, r.codeSnippet) := by
  cases hf : s.findings.find? (fun g => keyMatches g r) with
  | some f =>
    have hpf := List.find?_some hf
    have hA := ingestOne_eq_some s r t₁ f hf
    have h2 : (refreshAll r t₁ s.findings).find?
        (fun g => keyMatches g r) = some (refreshRow r t₁ f) := by
      rw [find?_refreshAll, hf]
      simp [hpf]
    have hB := ingestOne_eq_some
      { s with findings := refreshAll r t₁ s.findings } r t₂
      (refreshRow r t₁ f) h2
    have hcomp : ingestOne (ingestOne s r t₁).1 r t₂ =
        ({ s with findings := refreshAll r t₂ (refreshAll r t₁ s.findings) },
          (refreshRow r t₁ f).id) := by
      rw [hA]
      exact hB
    refine ⟨?_, ?_, ?_⟩
    · rw [hcomp, hA]
      rfl
    · rw [hcomp, hA]
      simp [length_refreshAll]
    · rw [hcomp]
      show ((refreshAll r t₂ (refreshAll r t₁ s.findings)).find?
        (fun g => keyMatches g r)).map _ = _
      rw [find?_refreshAll, h2]
      simp only [Option.map_some', keyMatches_refreshRow, hpf]
      simp [refreshRow]
  | none =>
    have hA := ingestOne_eq_none s r t₁ hf
    have h2 : (s.findings ++
        [(⟨s.nextId, r.filePath, r.patternType, r.lineNumber,
          r.codeSnippet, r.severity, t₁⟩ : Finding)]).find?
        (fun g => keyMatches g r) =
        some ⟨s.nextId, r.filePath, r.patternType, r.lineNumber,
          r.codeSnippet, r.severity, t₁⟩ := by
      rw [List.find?_append, hf]
      simp [List.find?, keyMatches_fresh s r t₁]
    have hB := ingestOne_eq_some
      { findings := s.findings ++
          [⟨s.nextId, r.filePath, r.patternType, r.lineNumber,
            r.codeSnippet, r.severity, t₁⟩],
        nextId := s.nextId + 1 } r t₂ _ h2
    have hcomp : ingestOne (ingestOne s r t₁).1 r t₂ =
        ({ findings := refreshAll r t₂ (s.findings ++
            [⟨s.nextId, r.filePath, r.patternType, r.lineNumber,
              r.codeSnippet, r.severity, t₁⟩]),
           nextId := s.nextId + 1 },
          (⟨s.nextId, r.filePath, r.patternType, r.lineNumber,
            r.codeSnippet, r.severity, t₁⟩ : Finding).id) := by
      rw [hA]
      exact hB
    refine ⟨?_, ?_, ?_⟩
    · rw [hcomp, hA]
    · rw [hcomp, hA]
      simp [length_refreshAll]
    · rw [hcomp]
      show ((refreshAll r t₂ (s.findings ++ _)).find?
        (fun g => keyMatches g r)).map _ = _
      rw [find?_refreshAll, h2]
      simp only [Option.map_some', keyMatches_fresh s r t₁]
      simp [refreshRow]

end Comby.PatternStore

/-- C3: after any sequence of ingest calls starting from the empty
store, the pattern store satisfies the uniqueness invariant — at most
one finding per (filePath, patternType, lineNumber) triple — and
re-ingesting the same raw finding returns the same id as the first
ingest, adds no row, and leaves the row for that key carrying the new
detectedAt and the new snippet. -/
theorem c3_ingest_unique_and_idempotent :
    ∀ (rs : List (Comby.PatternStore.RawFinding × Nat))
      (r : Comby.PatternStore.RawFinding) (t₁ t₂ : Nat),
      Comby.PatternStore.UniqueTriples
        (Comby.PatternStore.ingestList Comby.PatternStore.emptyStore rs) ∧
      (Comby.PatternStore.ingestOne
          (Comby.PatternStore.ingestOne
            (Comby.PatternStore.ingestList Comby.PatternStore.emptyStore rs)
            r t₁).1 r t₂).2 =
        (Comby.PatternStore.ingestOne
          (Comby.PatternStore.ingestList Comby.PatternStore.emptyStore rs)
          r t₁).2 ∧
      ((Comby.PatternStore.ingestOne
          (Comby.PatternStore.ingestOne
            (Comby.PatternStore.ingestList Comby.PatternStore.emptyStore rs)
            r t₁).1 r t₂).1).findings.length =
        ((Comby.PatternStore.ingestOne
          (Comby.PatternStore.ingestList Comby.PatternStore.emptyStore rs)
          r t₁).1).findings.length ∧
      (((Comby.PatternStore.ingestOne
          (Comby.PatternStore.ingestOne
            (Comby.PatternStore.ingestList Comby.PatternStore.emptyStore rs)
            r t₁).1 r t₂).1).findings.find?
          (fun f => Comby.PatternStore.keyMatches f r)).map
        (fun f => (f.detectedAt, f.codeSnippet)) =
        some (t₂, r.codeSnippet) := by
  intro rs r t₁ t₂
  obtain ⟨ha, hb, hc⟩ := Comby.PatternStore.ingestOne_twice
    (Comby.PatternStore.ingestList Comby.PatternStore.emptyStore rs) r t₁ t₂
  exact ⟨Comby.PatternStore.uniqueTriples_ingestList rs
    Comby.PatternStore.emptyStore (by simp [Comby.PatternStore.UniqueTriples,
      Comby.PatternStore.emptyStore]), ha, hb, hc⟩
